import Mathlib

/-!
Verification of the sales-board broadcast server (`app/main.py`).

Shallow embedding conventions:
* A `Channel` (a `WebSocket` object) is identified by a natural number standing
  for its object identity; the code never inspects a channel beyond identity.
* `ManagerState` embeds the mutable state of the module: the single
  `ConnectionManager`'s `active_connections` and `sales_data` lists, plus the
  module-level `sales_data_db` list that `record_sale` also appends to.
* A call to `websocket.send_text msg` is recorded as a `SendAction`; operations
  return the new state together with the ordered trace of sends they perform.
* Python exceptions (`ValueError` from `list.remove`, `HTTPException` from the
  auth dependency) are embedded as `Option`/`Except` results.
-/

/-- A channel handle: one connected WebSocket client, identified by object
identity only (the code never deduplicates by client id). -/
abbrev Channel := Nat

/-- One `send_text` call performed by the server: which channel received
which message, in program order. -/
structure SendAction where
  chan : Channel
  msg : String
deriving DecidableEq, Repr

/-- The mutable module state of `app/main.py`:
`ConnectionManager.active_connections`, `ConnectionManager.sales_data`
and the module-level `sales_data_db` that `record_sale` mirrors into. -/
structure ManagerState where
  active_connections : List Channel
  sales_data : List String
  sales_data_db : List String
deriving DecidableEq, Repr

/-- The state right after module import: all three lists empty. -/
def initialState : ManagerState := ⟨[], [], []⟩

/-- Embedding of Python `list.remove(x)`: removes the first occurrence of `x`,
or raises `ValueError` (`none`) when `x` is absent. -/
def listRemove (x : Channel) : List Channel → Option (List Channel)
  | [] => none
  | y :: ys => if y = x then some ys else (listRemove x ys).map (y :: ·)

/-- `ConnectionManager.broadcast(message)`: sends `message` to every channel in
`active_connections`, in registry order.  This is the all-sends-succeed run of
the source loop `for connection in self.active_connections: await
connection.send_text(message)`. -/
def broadcast (s : ManagerState) (message : String) : List SendAction :=
  s.active_connections.map (fun connection => ⟨connection, message⟩)

/-- The same source loop under a failure model: `fails c = true` means
`c.send_text` raises.  The loop body has no `try`/`except`, so the first
failing send propagates its exception and aborts the loop.  Returns the sends
actually delivered before the abort and whether an exception escaped. -/
def broadcastFallible (fails : Channel → Bool) (conns : List Channel)
    (message : String) : List SendAction × Bool :=
  match conns with
  | [] => ([], false)
  | c :: cs =>
    if fails c then ([], true)
    else
      let r := broadcastFallible fails cs message
      (⟨c, message⟩ :: r.1, r.2)

/-- `ConnectionManager.send_existing_sales(websocket)`: sends every element of
`sales_data`, in list order, to that one websocket. -/
def send_existing_sales (s : ManagerState) (websocket : Channel) : List SendAction :=
  s.sales_data.map (fun sale => ⟨websocket, sale⟩)

/-- `ConnectionManager.connect(websocket)`: accepts the socket, appends it to
`active_connections`, then (when `sales_data` is non-empty) replays the
existing sales to the new socket alone. -/
def connect (s : ManagerState) (websocket : Channel) : ManagerState × List SendAction :=
  let s1 := { s with active_connections := s.active_connections ++ [websocket] }
  (s1, if s1.sales_data.isEmpty then [] else send_existing_sales s1 websocket)

/-- `ConnectionManager.disconnect(websocket)`:
`self.active_connections.remove(websocket)` — removes the first occurrence, or
raises `ValueError` (`none`) when the websocket is not in the list. -/
def disconnect (s : ManagerState) (websocket : Channel) : Option ManagerState :=
  (listRemove websocket s.active_connections).map
    (fun l => { s with active_connections := l })

/-- `ConnectionManager.record_sale(sale)`: appends `sale` to `sales_data` and
to the module-level `sales_data_db`.  The body contains no send call, so its
trace is empty. -/
def record_sale (s : ManagerState) (sale : String) : ManagerState × List SendAction :=
  ({ s with sales_data := s.sales_data ++ [sale],
            sales_data_db := s.sales_data_db ++ [sale] }, [])

/-- The event string built in the websocket endpoint:
`f"Salesperson #{client_id} reports a sale: {data}"`. -/
def saleMessageWs (client_id : Nat) (data : String) : String :=
  "Salesperson #" ++ toString client_id ++ " reports a sale: " ++ data

/-- The departure notice broadcast by the websocket endpoint's disconnect
handler: `f"Salesperson #{client_id} left the board."`. -/
def departureMessage (client_id : Nat) : String :=
  "Salesperson #" ++ toString client_id ++ " left the board."

/-- The event string built in the `POST /sales` endpoint:
`f"Salesperson reports a sale: {sale.message}"`. -/
def saleMessagePost (message : String) : String :=
  "Salesperson reports a sale: " ++ message

/-- One iteration of the `while True` receive loop in `websocket_endpoint`:
format the received text, `record_sale` it, then `broadcast` it. -/
def ws_on_message (s : ManagerState) (client_id : Nat) (data : String) :
    ManagerState × List SendAction :=
  let sale_message := saleMessageWs client_id data
  let r := record_sale s sale_message
  (r.1, r.2 ++ broadcast r.1 sale_message)

/-- The `except WebSocketDisconnect` handler of `websocket_endpoint`:
`manager.disconnect(websocket)` then broadcast the departure notice.  When
`disconnect` raises `ValueError` the broadcast never runs (`none`). -/
def ws_on_disconnect (s : ManagerState) (client_id : Nat) (websocket : Channel) :
    Option (ManagerState × List SendAction) :=
  (disconnect s websocket).map
    (fun s1 => (s1, broadcast s1 (departureMessage client_id)))

/-- The user database `fake_users_db`, abstracted to its set of usernames
(passwords play no role in the claims below). -/
abbrev UserDb := List String

/-- `get_current_user`: the bearer token (`none` when the request carries no
`Authorization` header, in which case `oauth2_scheme` itself raises 401) is
looked up as a username via `get_user`; an unknown token raises
`HTTPException(401)`. -/
def get_current_user (db : UserDb) (token : Option String) : Except Nat String :=
  match token with
  | none => .error 401
  | some t => if db.contains t then .ok t else .error 401

/-- Whether the request's bearer token names an existing user. -/
def hasValidToken (db : UserDb) (token : Option String) : Bool :=
  match token with
  | none => false
  | some t => db.contains t

/-- `POST /sales` (`create_sale`): the `Depends(get_current_user)` dependency
runs first and a 401 aborts the request before the handler body; otherwise the
handler formats the sale, calls `record_sale`, then `broadcast`. -/
def create_sale (db : UserDb) (s : ManagerState) (token : Option String)
    (message : String) : Except Nat (ManagerState × List SendAction) :=
  match get_current_user db token with
  | .error e => .error e
  | .ok _ =>
    let sale_message := saleMessagePost message
    let r := record_sale s sale_message
    .ok (r.1, r.2 ++ broadcast r.1 sale_message)

/-- `GET /sales` (`get_sales`): returns `manager.sales_data`. -/
def get_sales (s : ManagerState) : List String :=
  s.sales_data

/-- The `GET /sales` route as dispatched: the route declares no authentication
dependency, so whatever bearer token the caller does or does not present is
never inspected and the handler always answers with the full sales list. -/
def get_sales_endpoint (s : ManagerState) (_token : Option String) :
    Except Nat (List String) :=
  .ok (get_sales s)

/-- The state-mutating requests the server can process, for reachability
arguments over the module state. -/
inductive Op where
  | wsConnect (websocket : Channel)
  | wsMessage (client_id : Nat) (data : String)
  | wsDisconnect (client_id : Nat) (websocket : Channel)
  | postSale (token : Option String) (message : String)
deriving Repr

/-- One request against the module state, returning the new state and the
trace of sends it performed.  An operation that raises leaves the state as it
was at the raise point (`list.remove` raises before mutating). -/
def stepOp (db : UserDb) (s : ManagerState) : Op → ManagerState × List SendAction
  | .wsConnect websocket => connect s websocket
  | .wsMessage client_id data => ws_on_message s client_id data
  | .wsDisconnect client_id websocket =>
    match ws_on_disconnect s client_id websocket with
    | none => (s, [])
    | some r => r
  | .postSale token message =>
    match create_sale db s token message with
    | .error _ => (s, [])
    | .ok r => r

/-- Run a sequence of requests from a state, accumulating the send trace. -/
def runOps (db : UserDb) (s : ManagerState) : List Op → ManagerState × List SendAction
  | [] => (s, [])
  | op :: ops =>
    let r := stepOp db s op
    let r2 := runOps db r.1 ops
    (r2.1, r.2 ++ r2.2)

/-- A history entry is sale-formatted: produced by the websocket message path
or by the `POST /sales` path. -/
def saleShaped (m : String) : Prop :=
  (∃ client_id data, m = saleMessageWs client_id data) ∨
  (∃ message, m = saleMessagePost message)

/-! ### Helper lemmas: decimal renderings of naturals are digit strings -/

/-- `Nat.digitChar` of a value below ten is a decimal digit character. -/
theorem digitChar_isDigit (n : Nat) (h : n < 10) : (Nat.digitChar n).isDigit = true := by
  interval_cases n <;> decide

/-- `Nat.toDigitsCore` in base ten only prepends decimal digit characters. -/
theorem toDigitsCore_isDigit (fuel : Nat) : ∀ (n : Nat) (ds : List Char),
    (∀ c ∈ ds, c.isDigit = true) →
    ∀ c ∈ Nat.toDigitsCore 10 fuel n ds, c.isDigit = true := by
  induction fuel with
  | zero =>
    intro n ds hds
    simpa [Nat.toDigitsCore] using hds
  | succ fuel ih =>
    intro n ds hds
    have hcons : ∀ c ∈ Nat.digitChar (n % 10) :: ds, c.isDigit = true := by
      intro c hc
      rcases List.mem_cons.mp hc with h1 | h1
      · subst h1
        exact digitChar_isDigit _ (Nat.mod_lt _ (by norm_num))
      · exact hds c h1
    simp only [Nat.toDigitsCore]
    split
    · exact hcons
    · exact ih (n / 10) (Nat.digitChar (n % 10) :: ds) hcons

/-- Every character of the decimal rendering `toString n` of a natural is a
digit. -/
theorem toString_nat_isDigit (n : Nat) : ∀ c ∈ (toString n).data, c.isDigit = true := by
  have h : (toString n).data = Nat.toDigitsCore 10 (n + 1) n [] := rfl
  rw [h]
  exact toDigitsCore_isDigit (n + 1) n [] (by simp)

/-- Two digit strings each followed by a space determine each other: the space
cannot occur inside either digit string. -/
theorem digits_space_cancel : ∀ (as bs u v : List Char),
    (∀ c ∈ as, c.isDigit = true) → (∀ c ∈ bs, c.isDigit = true) →
    as ++ ' ' :: u = bs ++ ' ' :: v → as = bs ∧ u = v := by
  intro as
  induction as with
  | nil =>
    intro bs u v _ hb h
    cases bs with
    | nil => simpa using h
    | cons b bs' =>
      simp only [List.nil_append, List.cons_append, List.cons.injEq] at h
      have hbdig := hb b (by simp)
      rw [← h.1] at hbdig
      exact absurd hbdig (by decide)
  | cons a as' ih =>
    intro bs u v ha hb h
    cases bs with
    | nil =>
      simp only [List.cons_append, List.nil_append, List.cons.injEq] at h
      have hadig := ha a (by simp)
      rw [h.1] at hadig
      exact absurd hadig (by decide)
    | cons b bs' =>
      simp only [List.cons_append, List.cons.injEq] at h
      obtain ⟨hab, hrest⟩ := h
      obtain ⟨h1, h2⟩ := ih bs' u v
        (fun c hc => ha c (List.mem_cons_of_mem a hc))
        (fun c hc => hb c (List.mem_cons_of_mem b hc)) hrest
      exact ⟨by rw [hab, h1], h2⟩

/-- A websocket sale message is never equal to any departure notice. -/
theorem saleWs_ne_departure (client_id : Nat) (data : String) (j : Nat) :
    saleMessageWs client_id data ≠ departureMessage j := by
  intro h
  have hd := congrArg String.data h
  simp only [saleMessageWs, departureMessage, String.data_append, List.append_assoc] at hd
  have hc := List.append_cancel_left hd
  simp only [List.cons_append, List.nil_append] at hc
  obtain ⟨-, h2⟩ := digits_space_cancel _ _ _ _
    (toString_nat_isDigit client_id) (toString_nat_isDigit j) hc
  rw [List.cons.injEq] at h2
  exact absurd h2.1 (by decide)

/-- A `POST /sales` sale message is never equal to any departure notice. -/
theorem salePost_ne_departure (message : String) (j : Nat) :
    saleMessagePost message ≠ departureMessage j := by
  intro h
  have hd := congrArg String.data h
  simp only [saleMessagePost, departureMessage, String.data_append, List.append_assoc] at hd
  have h12 := congrArg (fun l : List Char => l[12]?) hd
  simp only [] at h12
  rw [List.getElem?_append_left (by decide), List.getElem?_append_left (by decide)] at h12
  exact absurd h12 (by decide)

/-- A sale-shaped history entry is never a departure notice. -/
theorem saleShaped_ne_departure (m : String) (h : saleShaped m) (j : Nat) :
    m ≠ departureMessage j := by
  rcases h with ⟨i, d, rfl⟩ | ⟨t, rfl⟩
  · exact saleWs_ne_departure i d j
  · exact salePost_ne_departure t j

/-! ### Helper lemmas: registry removal and reachable-state invariants -/

/-- When `list.remove` succeeds on a duplicate-free list, the removed element
is no longer present. -/
theorem listRemove_not_mem (x : Channel) : ∀ (l l' : List Channel),
    l.Nodup → listRemove x l = some l' → x ∉ l' := by
  intro l
  induction l with
  | nil => intro l' _ h; simp [listRemove] at h
  | cons y ys ih =>
    intro l' hnd h
    rw [listRemove] at h
    by_cases hyx : y = x
    · rw [if_pos hyx] at h
      cases h
      subst hyx
      exact (List.nodup_cons.mp hnd).1
    · rw [if_neg hyx] at h
      cases hrec : listRemove x ys with
      | none => rw [hrec] at h; simp at h
      | some ys' =>
        rw [hrec] at h
        obtain rfl := Option.some.inj h
        intro hmem
        rcases List.mem_cons.mp hmem with h1 | h1
        · exact hyx h1.symm
        · exact ih ys' (List.nodup_cons.mp hnd).2 hrec h1

/-- Invariant: every entry of the History Log is sale-formatted. -/
def histSaleShaped (s : ManagerState) : Prop :=
  ∀ m ∈ s.sales_data, saleShaped m

/-- Every message the server sends is either sale-formatted (a live sale or a
history replay) or a departure notice; no other notice, a join notice in
particular, is ever generated. -/
def traceOk (tr : List SendAction) : Prop :=
  ∀ a ∈ tr, saleShaped a.msg ∨ ∃ j, a.msg = departureMessage j

/-- Each request preserves the sale-shaped-history invariant and only emits
sale-shaped messages or departure notices. -/
theorem stepOp_preserves (db : UserDb) (s : ManagerState) (op : Op)
    (h : histSaleShaped s) :
    histSaleShaped (stepOp db s op).1 ∧ traceOk (stepOp db s op).2 := by
  cases op with
  | wsConnect websocket =>
    constructor
    · intro m hm
      exact h m hm
    · intro a ha
      left
      simp only [stepOp, connect] at ha
      split at ha
      · cases ha
      · simp only [send_existing_sales, List.mem_map] at ha
        obtain ⟨sale, hsale, rfl⟩ := ha
        exact h sale hsale
  | wsMessage client_id data =>
    constructor
    · intro m hm
      simp only [stepOp, ws_on_message, record_sale] at hm
      rcases List.mem_append.mp hm with h1 | h1
      · exact h m h1
      · left
        exact ⟨client_id, data, (List.mem_singleton.mp h1).symm ▸ rfl⟩
    · intro a ha
      simp only [stepOp, ws_on_message, record_sale, broadcast, List.nil_append,
        List.mem_map] at ha
      obtain ⟨c, -, rfl⟩ := ha
      exact Or.inl (Or.inl ⟨client_id, data, rfl⟩)
  | wsDisconnect client_id websocket =>
    simp only [stepOp]
    cases hdis : ws_on_disconnect s client_id websocket with
    | none => exact ⟨h, fun a ha => by cases ha⟩
    | some r =>
      cases hrem : listRemove websocket s.active_connections with
      | none =>
        rw [ws_on_disconnect, disconnect, hrem] at hdis
        cases hdis
      | some l =>
      rw [ws_on_disconnect, disconnect, hrem] at hdis
      have hr := Option.some.inj hdis
      subst hr
      constructor
      · intro m hm
        exact h m hm
      · intro a ha
        simp only [broadcast, List.mem_map] at ha
        obtain ⟨c, -, rfl⟩ := ha
        exact Or.inr ⟨client_id, rfl⟩
  | postSale token message =>
    simp only [stepOp]
    cases hcs : create_sale db s token message with
    | error e => exact ⟨h, fun a ha => by cases ha⟩
    | ok r =>
      simp only [create_sale] at hcs
      cases hauth : get_current_user db token with
      | error e => rw [hauth] at hcs; cases hcs
      | ok u =>
        rw [hauth] at hcs
        simp only [record_sale, Except.ok.injEq] at hcs
        subst hcs
        constructor
        · intro m hm
          rcases List.mem_append.mp hm with h1 | h1
          · exact h m h1
          · exact Or.inr ⟨message, (List.mem_singleton.mp h1)⟩
        · intro a ha
          simp only [broadcast, List.nil_append, List.mem_map] at ha
          obtain ⟨c, -, rfl⟩ := ha
          exact Or.inl (Or.inr ⟨message, rfl⟩)

/-- Per-disconnect check that no send of the departure broadcast targets the
departing websocket itself (vacuously true when `disconnect` raises). -/
def noSelfNotification (s : ManagerState) (client_id : Nat) (websocket : Channel) : Bool :=
  match ws_on_disconnect s client_id websocket with
  | none => true
  | some r => r.2.all (fun a => a.chan != websocket)

/-- Tail of `record_sale` calls: record each event of the list in order. -/
def recordAll (s : ManagerState) : List String → ManagerState
  | [] => s
  | t :: ts => recordAll (record_sale s t).1 ts

/-! ### Claim theorems -/

/-- Claim C1, behavior of the code at the failing input: with channels 10, 20,
30 registered and the send to channel 20 raising, the unguarded broadcast loop
delivers the event only to channel 10 and the exception escapes; channel 30,
after the failing channel in registry order, never receives the event.  This
contradicts the claimed per-channel isolation of send failures. -/
theorem broadcast_aborts_on_send_failure :
    broadcastFallible (fun c => c == 20) [10, 20, 30] "sale" =
      ([SendAction.mk 10 "sale"], true) ∧
    SendAction.mk 30 "sale" ∉
      (broadcastFallible (fun c => c == 20) [10, 20, 30] "sale").1 := by
  decide

/-- Claim C2, behavior of the code at the failing input: `disconnect` on a
channel absent from the Registry hits `list.remove`'s `ValueError` (`none`);
in particular disconnecting channel 1 twice from the registry `[1]` raises the
second time instead of being a no-op. -/
theorem disconnect_raises_when_absent :
    disconnect initialState 5 = none ∧
    disconnect ⟨[1], [], []⟩ 1 = some ⟨[], [], []⟩ ∧
    disconnect ⟨[], [], []⟩ 1 = none :=
  ⟨rfl, rfl, rfl⟩

/-- Claim C3: `connect` appends the new channel to the Registry, leaves the
History Log unchanged, and its send trace is exactly the N history events, in
append order, each addressed to the new channel alone. -/
theorem connect_registers_then_replays (s : ManagerState) (websocket : Channel) :
    (connect s websocket).1.active_connections = s.active_connections ++ [websocket] ∧
    (connect s websocket).1.sales_data = s.sales_data ∧
    (connect s websocket).2 = s.sales_data.map (fun sale => SendAction.mk websocket sale) := by
  refine ⟨rfl, rfl, ?_⟩
  cases h : s.sales_data with
  | nil => simp [connect, send_existing_sales, h]
  | cons a l => simp [connect, send_existing_sales, h]

/-- Claim C4: when the Registry has no duplicate handles (each connection is a
distinct object), the departure broadcast runs on the Registry with the
departing websocket already removed, so no send of the departure notice
targets that websocket. -/
theorem departure_not_sent_to_self (s : ManagerState) (client_id : Nat)
    (websocket : Channel) (h : s.active_connections.Nodup) :
    noSelfNotification s client_id websocket = true := by
  unfold noSelfNotification
  cases hdis : ws_on_disconnect s client_id websocket with
  | none => rfl
  | some r =>
    rw [ws_on_disconnect, disconnect] at hdis
    cases hrem : listRemove websocket s.active_connections with
    | none => rw [hrem] at hdis; cases hdis
    | some l =>
      rw [hrem] at hdis
      have hr := Option.some.inj hdis
      subst hr
      have hnm : websocket ∉ l := listRemove_not_mem websocket s.active_connections l h hrem
      simp only [broadcast, List.all_eq_true, List.mem_map]
      rintro a ⟨c, hc, rfl⟩
      simp only [bne_iff_ne, ne_eq]
      intro heq
      exact hnm (heq ▸ hc)

/-- Witness for C4 at a concrete input: registry `[1, 2]` is duplicate-free
and disconnecting websocket 1 of client 7 sends the departure notice to no
send action targeting websocket 1. -/
theorem departure_not_sent_to_self_witness :
    (ManagerState.mk [1, 2] [] []).active_connections.Nodup ∧
    noSelfNotification ⟨[1, 2], [], []⟩ 7 1 = true :=
  ⟨by decide, departure_not_sent_to_self ⟨[1, 2], [], []⟩ 7 1 (by decide)⟩

/-- Claim C5: one handled message formats the received text as
`"Salesperson #{client_id} reports a sale: {data}"`, appends exactly that
string to the History Log, leaves the Registry unchanged, and broadcasts that
same string to every channel currently in the Registry, in registry order. -/
theorem ws_on_message_formats_records_broadcasts (s : ManagerState)
    (client_id : Nat) (data : String) :
    (ws_on_message s client_id data).1.sales_data =
      s.sales_data ++ [saleMessageWs client_id data] ∧
    (ws_on_message s client_id data).1.active_connections = s.active_connections ∧
    (ws_on_message s client_id data).2 =
      s.active_connections.map (fun c => SendAction.mk c (saleMessageWs client_id data)) :=
  ⟨rfl, rfl, rfl⟩

/-- Claim C6: a request to `POST /sales` whose bearer token does not name an
existing user (a missing token included) is rejected with 401 by the
dependency before the handler body runs: the result carries no state change
and no send, so the History Log and Registry are untouched. -/
theorem create_sale_rejects_invalid_token (db : UserDb) (s : ManagerState)
    (token : Option String) (message : String)
    (h : hasValidToken db token = false) :
    create_sale db s token message = Except.error 401 := by
  cases token with
  | none => rfl
  | some t =>
    simp only [hasValidToken] at h
    have h' : t ∉ db := by simpa using h
    simp [create_sale, get_current_user, h']

/-- Witness for C6 at a concrete input: with user database `["testuser"]` the
token `"intruder"` is invalid and the request is rejected with 401. -/
theorem create_sale_rejects_invalid_token_witness :
    hasValidToken ["testuser"] (some "intruder") = false ∧
    create_sale ["testuser"] initialState (some "intruder") "5 units" =
      Except.error 401 :=
  ⟨by decide,
    create_sale_rejects_invalid_token ["testuser"] initialState (some "intruder")
      "5 units" (by decide)⟩

/-- Claim C7: after recording any sequence of events, `GET /sales` returns the
History Log extended by exactly those events, element for element and in
submission order; from the initial state it returns exactly the recorded
events. -/
theorem get_sales_returns_full_history (s : ManagerState) (events : List String) :
    get_sales (recordAll s events) = get_sales s ++ events := by
  induction events generalizing s with
  | nil => simp [recordAll, get_sales]
  | cons t ts ih =>
    rw [recordAll, ih]
    simp [get_sales, record_sale]

/-- Claim C8: `record_sale` appends the text as the last element of the
History Log (and of the module-level mirror), leaves all previously recorded
events in place as the unchanged prefix, leaves the Registry untouched, and
performs no send. -/
theorem record_sale_appends_only (s : ManagerState) (text : String) :
    (record_sale s text).1.sales_data = s.sales_data ++ [text] ∧
    (record_sale s text).1.sales_data_db = s.sales_data_db ++ [text] ∧
    (record_sale s text).1.active_connections = s.active_connections ∧
    (record_sale s text).2 = [] :=
  ⟨rfl, rfl, rfl, rfl⟩

/-- Claim C9: over every request sequence from the initial state, every entry
of the History Log is sale-formatted (websocket or `POST /sales` shape) and is
never equal to any departure notice, so queries and replays only ever return
sale messages; moreover every message the server sends is a sale message or a
departure notice — no join notice is ever generated. -/
theorem history_is_sales_only (db : UserDb) (ops : List Op) :
    (∀ m ∈ (runOps db initialState ops).1.sales_data,
      saleShaped m ∧ ∀ j, m ≠ departureMessage j) ∧
    (∀ a ∈ (runOps db initialState ops).2,
      saleShaped a.msg ∨ ∃ j, a.msg = departureMessage j) := by
  have main : ∀ (l : List Op) (s : ManagerState), histSaleShaped s →
      histSaleShaped (runOps db s l).1 ∧ traceOk (runOps db s l).2 := by
    intro l
    induction l with
    | nil =>
      intro s hs
      exact ⟨hs, fun a ha => by cases ha⟩
    | cons op rest ih =>
      intro s hs
      have h1 := stepOp_preserves db s op hs
      have h2 := ih (stepOp db s op).1 h1.1
      refine ⟨h2.1, ?_⟩
      intro a ha
      rcases List.mem_append.mp ha with hx | hx
      · exact h1.2 a hx
      · exact h2.2 a hx
  have h0 : histSaleShaped initialState := fun m hm => by cases hm
  obtain ⟨hh, ht⟩ := main ops initialState h0
  exact ⟨fun m hm => ⟨hh m hm, saleShaped_ne_departure m (hh m hm)⟩, ht⟩

/-- Claim C10: the `GET /sales` route declares no authentication dependency,
so for every caller — any bearer token or none — the request is never rejected
and the full History Log is returned. -/
theorem get_sales_requires_no_auth (s : ManagerState) (token : Option String) :
    get_sales_endpoint s token = Except.ok s.sales_data :=
  rfl
